import Mathlib

/-!
Shallow embedding of the news collection-and-caching pipeline
(`src/news/models.py`, `src/news/cache.py`, `src/news/collector.py`,
`src/news/sources.py`) and proofs about it.

Modelling conventions:
* Python strings are `List Char` (`PyStr`).
* Python floats are modelled as rationals `ℚ`; every float the pipeline
  produces is an exact sum of the literals 0.3/0.4/0.0/1.0, so no rounding
  behaviour is lost for the properties considered here.
* Naive `datetime` values are modelled by a `Nat` count of seconds.  The
  library rendering `datetime.isoformat` is an injective rendering into a
  string and `datetime.fromisoformat` is its partial inverse; no property
  here inspects the characters of the rendered string, so the rendering is
  modelled by the decimal numeral of the second count (`natChars`) and the
  parser by `natParse?`.
* `hashlib.md5(...).hexdigest()` in the cache key is injective on the value
  space exercised here (the design document assumes no hash collisions), so
  the cache key is modelled by the pre-image string `f"{query}_{limit}"`.
* Exceptions are modelled by `Except PyErr`.
-/

/-! ## Definitions: the embedded data model and operations -/

/-- Python strings. -/
abbrev PyStr := List Char

/-- Coerce a Lean string literal to the Python string model. -/
def pystr (s : String) : PyStr := s.toList

/-- Exception classes that the modelled code distinguishes. -/
inductive PyErr where
  | valueError
  | typeError
deriving DecidableEq, Repr

/-- Python `str.lower` on one character: ASCII letters plus the Cyrillic
range used by the repository's literals (U+0410..U+042F and Ё). -/
def pyLowerChar (c : Char) : Char :=
  if 0x410 ≤ c.toNat ∧ c.toNat ≤ 0x42F then Char.ofNat (c.toNat + 0x20)
  else if c.toNat = 0x401 then Char.ofNat 0x451
  else c.toLower

/-- Python `str.lower`. -/
def pyLower (s : PyStr) : PyStr := s.map pyLowerChar

/-- Python `str.strip()`: drop whitespace on both ends. -/
def pyStrip (s : PyStr) : PyStr :=
  ((s.dropWhile Char.isWhitespace).reverse.dropWhile Char.isWhitespace).reverse

/-- Whether `needle` starts `hay` (helper for the substring test). -/
def listStartsWith : List Char → List Char → Bool
  | [], _ => true
  | _ :: _, [] => false
  | a :: as_, b :: bs => a = b && listStartsWith as_ bs

/-- Python `needle in hay` on strings: substring occurrence. -/
def substrOf (needle : List Char) : List Char → Bool
  | [] => listStartsWith needle []
  | c :: rest => listStartsWith needle (c :: rest) || substrOf needle rest

/-- Python `s.split(',')`: split on commas, keeping empty segments
(`"".split(',') = [""]`, `"a,".split(',') = ["a", ""]`). -/
def pySplitComma : List Char → List (List Char)
  | [] => [[]]
  | c :: rest =>
    match pySplitComma rest with
    | [] => [[]]
    | seg :: segs => if c = ',' then [] :: seg :: segs else (c :: seg) :: segs

/-- The decimal digit character for `d < 10`. -/
def digitChar' (d : Nat) : Char := Char.ofNat (48 + d)

/-- Decimal rendering worker; `fuel` bounds the recursion depth (structural
recursion so that concrete values reduce inside `decide`). -/
def natCharsAux : Nat → Nat → List Char
  | _, 0 => []
  | n, fuel + 1 =>
    if n < 10 then [digitChar' n]
    else natCharsAux (n / 10) fuel ++ [digitChar' (n % 10)]

/-- Decimal numeral of a natural number, least significant digit last. -/
def natChars (n : Nat) : List Char := natCharsAux n (n + 1)

/-- Is `c` a decimal digit? -/
def isDigitCh (c : Char) : Bool := decide (48 ≤ c.toNat) && decide (c.toNat ≤ 57)

/-- Numeric value of a digit character. -/
def digitVal (c : Char) : Nat := c.toNat - 48

/-- Parse a non-empty all-digit string as a natural number; `none` otherwise.
Stands for `datetime.fromisoformat` (raises on non-conforming input). -/
def natParse? (s : PyStr) : Option Nat :=
  if !s.isEmpty && s.all isDigitCh then
    some (s.foldl (fun acc c => acc * 10 + digitVal c) 0)
  else none

/-- `NewsCategory` enum. -/
inductive NewsCategory where
  | politics | economy | society | incident | sport | culture | other
deriving DecidableEq, Repr

/-- The string tag of a category (`NewsCategory(...).value`). -/
def catStr : NewsCategory → PyStr
  | .politics => pystr "politics"
  | .economy => pystr "economy"
  | .society => pystr "society"
  | .incident => pystr "incident"
  | .sport => pystr "sport"
  | .culture => pystr "culture"
  | .other => pystr "other"

/-- Default region string (`"Тульская область"`). -/
def defaultRegionField : PyStr := pystr "Тульская область"

/-- `NewsArticle` dataclass fields.  `published_at` is a naive datetime
modelled as a second count; `relevance_score` is a float modelled as `ℚ`. -/
structure NewsArticle where
  id : PyStr
  title : PyStr
  url : PyStr
  source : PyStr
  published_at : Nat
  content : Option PyStr := none
  summary : Option PyStr := none
  category : NewsCategory := .other
  region : PyStr := defaultRegionField
  relevance_score : ℚ := 0
deriving DecidableEq, Repr

/-- Characters `urllib.parse` accepts inside a scheme. -/
def schemeOkChar (c : Char) : Bool := c.isAlphanum || c = '+' || c = '-' || c = '.'

/-- `urlparse` scheme extraction: if the text before the first `':'` is a
well-formed scheme, return `(scheme, rest-after-colon)`; otherwise the whole
input is the scheme-less remainder. -/
def splitScheme (url : PyStr) : PyStr × PyStr :=
  let before := url.takeWhile (fun c => !(c = ':'))
  let after := url.dropWhile (fun c => !(c = ':'))
  match after with
  | ':' :: rest =>
    match before with
    | [] => ([], url)
    | c0 :: _ =>
      if c0.isAlpha && before.all schemeOkChar then (before, rest) else ([], url)
  | _ => ([], url)

/-- `urlparse` netloc: present only after a leading `"//"`, up to the next
`/`, `?` or `#`. -/
def netlocOf (rest : PyStr) : PyStr :=
  match rest with
  | '/' :: '/' :: r => r.takeWhile (fun c => !(c = '/' || c = '?' || c = '#'))
  | _ => []

/-- `NewsArticle._is_valid_url`: `all([result.scheme, result.netloc])`. -/
def is_valid_url (url : PyStr) : Bool :=
  let p := splitScheme url
  !p.1.isEmpty && !(netlocOf p.2).isEmpty

/-- Title check of `NewsArticle._validate`. -/
def titleOk (t : PyStr) : Bool := !t.isEmpty && decide (3 ≤ (pyStrip t).length)

/-- URL check of `NewsArticle._validate`. -/
def urlFieldOk (u : PyStr) : Bool := !u.isEmpty && is_valid_url u

/-- Source check of `NewsArticle._validate`. -/
def sourceFieldOk (s : PyStr) : Bool := !s.isEmpty && decide (2 ≤ (pyStrip s).length)

/-- Relevance check of `NewsArticle._validate`. -/
def relOk (r : ℚ) : Bool := decide (0 ≤ r) && decide (r ≤ 1)

/-- `NewsArticle._validate` as a boolean. -/
def validate (a : NewsArticle) : Bool :=
  titleOk a.title && urlFieldOk a.url && sourceFieldOk a.source &&
    relOk a.relevance_score

/-- Article construction (`NewsArticle(...)` running `__post_init__`):
either the validated article or a `ValueError`. -/
def mkNewsArticle (id title url source : PyStr) (published_at : Nat)
    (content summary : Option PyStr) (category : NewsCategory)
    (region : PyStr) (relevance_score : ℚ) : Except PyErr NewsArticle :=
  let a : NewsArticle :=
    ⟨id, title, url, source, published_at, content, summary, category, region,
      relevance_score⟩
  if validate a then .ok a else .error .valueError

/-- JSON-shaped Python values stored in dictionaries.  Booleans, arrays and
nested objects never occur in the article dictionaries and are omitted. -/
inductive PyVal where
  | str (s : PyStr)
  | num (q : ℚ)
  | pyNone
deriving DecidableEq, Repr

/-- A Python dictionary with string keys (association list, first key wins). -/
abbrev Dict := List (String × PyVal)

/-- `data.get(key, default)`: the stored value (even `None`) if the key is
present, the default otherwise. -/
def getD (d : Dict) (k : String) (v : PyVal) : PyVal :=
  (List.lookup k d).getD v

/-- Using a dictionary value as a `str`-typed dataclass field.  Non-string
values in the string-typed slots make Python raise `AttributeError` /
`ValueError` during validation; the model reports `typeError` (theorems about
`from_dict` carry the `dictWF` hypothesis restricting those slots to
strings). -/
def asStr : PyVal → Except PyErr PyStr
  | .str s => .ok s
  | _ => .error .typeError

/-- Using a dictionary value as an optional string (content / summary). -/
def asOptStr : PyVal → Except PyErr (Option PyStr)
  | .str s => .ok (some s)
  | .pyNone => .ok none
  | .num _ => .error .typeError

/-- `datetime.fromisoformat` applied to a dictionary value. -/
def fromisoOfVal : PyVal → Except PyErr Nat
  | .str s =>
    match natParse? s with
    | some t => .ok t
    | none => .error .valueError
  | _ => .error .typeError

/-- `float(value)` applied to a dictionary value (numeric strings with a
fractional part are outside the modelled inputs; no claim exercises them). -/
def floatOfVal : PyVal → Except PyErr ℚ
  | .num q => .ok q
  | .str s =>
    match natParse? s with
    | some n => .ok (n : ℚ)
    | none => .error .valueError
  | .pyNone => .error .typeError

/-- `NewsCategory(value)`: the enum member for a known tag, else ValueError. -/
def catOfVal : PyVal → Except PyErr NewsCategory
  | .str s =>
    if s = pystr "politics" then .ok .politics
    else if s = pystr "economy" then .ok .economy
    else if s = pystr "society" then .ok .society
    else if s = pystr "incident" then .ok .incident
    else if s = pystr "sport" then .ok .sport
    else if s = pystr "culture" then .ok .culture
    else if s = pystr "other" then .ok .other
    else .error .valueError
  | _ => .error .valueError

/-- The dictionary value of an optional string field. -/
def optStrVal : Option PyStr → PyVal
  | none => .pyNone
  | some s => .str s

/-- `NewsArticle.to_dict`. -/
def to_dict (a : NewsArticle) : Dict :=
  [("id", .str a.id),
   ("title", .str a.title),
   ("url", .str a.url),
   ("source", .str a.source),
   ("published_at", .str (natChars a.published_at)),
   ("content", optStrVal a.content),
   ("summary", optStrVal a.summary),
   ("category", .str (catStr a.category)),
   ("region", .str a.region),
   ("relevance_score", .num a.relevance_score)]

/-- First construction attempt of `NewsArticle.from_dict` (the `try` body).
`now` is the instant observed by `datetime.now()`. -/
def fromDictAttempt (d : Dict) (now : Nat) : Except PyErr NewsArticle := do
  let id ← asStr (getD d "id" (.str []))
  let title ← asStr (getD d "title" (.str []))
  let url ← asStr (getD d "url" (.str []))
  let source ← asStr (getD d "source" (.str []))
  let published ← fromisoOfVal (getD d "published_at" (.str (natChars now)))
  let content ← asOptStr (getD d "content" .pyNone)
  let summary ← asOptStr (getD d "summary" .pyNone)
  let category ← catOfVal (getD d "category" (.str (pystr "other")))
  let region ← asStr (getD d "region" (.str defaultRegionField))
  let score ← floatOfVal (getD d "relevance_score" (.num 0))
  mkNewsArticle id title url source published content summary category region
    score

/-- Fallback construction of `NewsArticle.from_dict` (the `except` body):
re-uses present dictionary values, substituting placeholders only for absent
keys, and fixes `published_at = now`, `relevance_score = 0`. -/
def fromDictFallback (d : Dict) (now : Nat) : Except PyErr NewsArticle := do
  let id ← asStr (getD d "id" (.str (pystr "unknown")))
  let title ← asStr (getD d "title" (.str (pystr "Без заголовка")))
  let url ← asStr (getD d "url" (.str (pystr "https://example.com")))
  let source ← asStr (getD d "source" (.str (pystr "Unknown")))
  mkNewsArticle id title url source now none none .other defaultRegionField 0

/-- `NewsArticle.from_dict`: first attempt, falling back on any failure; an
error from the fallback itself propagates. -/
def from_dict (d : Dict) (now : Nat) : Except PyErr NewsArticle :=
  match fromDictAttempt d now with
  | .ok a => .ok a
  | .error _ => fromDictFallback d now

/-- The JSON document `NewsCache.put` writes for one cache key. -/
structure CacheFile where
  query : PyStr
  limit : Nat
  cached_at : PyStr
  articles_count : Nat
  articles : List Dict
deriving DecidableEq, Repr

/-- The cache directory: cache key ↦ file (first binding wins; a fresh `put`
shadows the previous file, i.e. overwrites it). -/
abbrev CacheState := List (PyStr × CacheFile)

/-- `NewsCache._get_cache_key`: `md5(f"{query}_{limit}").hexdigest()`.  The
hexdigest is injective on the exercised value space (design assumption), so
the key is modelled by the pre-image string. -/
def cacheKeyData (q : PyStr) (l : Nat) : PyStr := q ++ [ '_' ] ++ natChars l

/-- `NewsCache._is_cache_valid`: the file exists, its `cached_at` parses, and
`now - cached_at < ttl` (in seconds). -/
def is_cache_valid (ttlSeconds : Nat) (now : Nat) : Option CacheFile → Bool
  | none => false
  | some f =>
    match natParse? f.cached_at with
    | none => false
    | some t => decide ((now : Int) - (t : Int) < (ttlSeconds : Int))

/-- Deserialize a stored article list left to right; the first failure aborts
the whole load. -/
def fromDictList (ds : List Dict) (now : Nat) : Except PyErr (List NewsArticle) :=
  match ds with
  | [] => .ok []
  | d :: rest =>
    match from_dict d now with
    | .error e => .error e
    | .ok a =>
      match fromDictList rest now with
      | .error e => .error e
      | .ok as_ => .ok (a :: as_)

/-- `NewsCache.get`: `none` when the entry is absent or expired, or when
deserialization fails (treated as a miss). -/
def cacheGet (st : CacheState) (ttlSeconds now : Nat) (q : PyStr) (l : Nat) :
    Option (List NewsArticle) :=
  if is_cache_valid ttlSeconds now (List.lookup (cacheKeyData q l) st) then
    match List.lookup (cacheKeyData q l) st with
    | none => none
    | some f =>
      match fromDictList f.articles now with
      | .ok arts => some arts
      | .error _ => none
  else none

/-- `NewsCache.put`: no-op on an empty list, otherwise overwrite the entry
for the key with a fresh `cached_at`. -/
def cachePut (st : CacheState) (now : Nat) (q : PyStr) (l : Nat)
    (articles : List NewsArticle) : CacheState :=
  if articles.isEmpty then st
  else
    (cacheKeyData q l,
      ⟨q, l, natChars now, articles.length, articles.map to_dict⟩) :: st

/-- The JSON document `NewsCollector._save_to_file` writes for one run.
`filename_ts` models the `strftime`-rendered timestamp in the filename. -/
structure Snapshot where
  filename_ts : Nat
  collected_at : PyStr
  query : PyStr
  total_count : Nat
  articles : List Dict
deriving DecidableEq, Repr

/-- Configuration fields the collector reads (`config.news`). -/
structure NewsConfig where
  default_region : PyStr
  news_limit : Nat
deriving DecidableEq, Repr

/-- Collector-owned persistent state: the cache directory and the snapshot
history in write order. -/
structure ColState where
  cache : CacheState
  snapshots : List Snapshot
deriving DecidableEq, Repr

/-- `NewsCollector._save_to_file`: append one snapshot; the `query` metadata
field is `config.news.default_region`. -/
def save_to_file (snaps : List Snapshot) (cfg : NewsConfig) (now : Nat)
    (articles : List NewsArticle) : List Snapshot :=
  snaps ++
    [⟨now, natChars now, cfg.default_region, articles.length,
      articles.map to_dict⟩]

/-- Result of one `collect` call: the returned list, the persistent state
afterwards, and whether the source adapter was invoked. -/
structure CollectResult (ε : Type) where
  articles : List NewsArticle
  state : ColState
  sourceInvoked : Bool

/-- `NewsCollector.collect`.  `fetch` is the source adapter
(`self.source.fetch_news`, already wrapped by the retry policy); `now` is the
instant observed by the `datetime.now()` calls of the run; `useCache` is the
constructor's `use_cache`; a fetch failure propagates. -/
def collect {ε : Type} (cfg : NewsConfig) (ttlSeconds : Nat) (useCache : Bool)
    (fetch : PyStr → Nat → Except ε (List NewsArticle)) (st : ColState)
    (q? : Option PyStr) (l? : Option Nat) (force_refresh : Bool) (now : Nat) :
    Except ε (CollectResult ε) :=
  let q := q?.getD cfg.default_region
  let l := l?.getD cfg.news_limit
  let hit : Option (List NewsArticle) :=
    if !force_refresh && useCache then
      match cacheGet st.cache ttlSeconds now q l with
      | some arts => if arts.isEmpty then none else some arts
      | none => none
    else none
  match hit with
  | some arts => .ok ⟨arts, st, false⟩
  | none =>
    match fetch q l with
    | .error e => .error e
    | .ok articles =>
      if articles.isEmpty then .ok ⟨articles, st, true⟩
      else
        .ok ⟨articles,
          ⟨(if useCache then cachePut st.cache now q l articles else st.cache),
            save_to_file st.snapshots cfg now articles⟩,
          true⟩

/-- Outcome of a wrapped call: normal return, a propagated exception, or the
degenerate `raise None` reached only when `max_attempts = 0`. -/
inductive RetryOutcome (ε α : Type) where
  | ok (a : α)
  | raised (e : ε)
  | raisedNone

/-- Observable trace of one wrapped call: outcome, number of invocations of
the wrapped operation, and the wait times slept between attempts. -/
structure RetryTrace (ε α : Type) where
  outcome : RetryOutcome ε α
  calls : Nat
  sleeps : List ℚ

/-- The retry loop body.  `op n` is the outcome of the `n`-th invocation of
the wrapped operation (indexing its effects), `retryable` is membership in
the `exceptions` tuple, `jitter n` is the `random.uniform(0, 0.1)` sample of
attempt `n`, and `fuel` is the number of remaining loop iterations
(`max_attempts - attempt`). -/
def retryGo {ε α : Type} (maxAttempts : Nat) (delay backoff : ℚ)
    (retryable : ε → Bool) (jitter : Nat → ℚ) (op : Nat → Except ε α) :
    Nat → Nat → Option ε → RetryTrace ε α
  | _, 0, last =>
    ⟨match last with
      | some e => .raised e
      | none => .raisedNone, 0, []⟩
  | attempt, fuel + 1, _ =>
    match op attempt with
    | .ok a => ⟨.ok a, 1, []⟩
    | .error e =>
      if retryable e then
        if attempt = maxAttempts - 1 then ⟨.raised e, 1, []⟩
        else
          let w := delay * backoff ^ attempt + jitter attempt
          let t := retryGo maxAttempts delay backoff retryable jitter op
            (attempt + 1) fuel (some e)
          ⟨t.outcome, t.calls + 1, w :: t.sleeps⟩
      else ⟨.raised e, 1, []⟩

/-- `retry_on_failure(max_attempts, delay, backoff, exceptions)` applied to an
operation and invoked once. -/
def retry_on_failure {ε α : Type} (maxAttempts : Nat) (delay backoff : ℚ)
    (retryable : ε → Bool) (jitter : Nat → ℚ) (op : Nat → Except ε α) :
    RetryTrace ε α :=
  retryGo maxAttempts delay backoff retryable jitter op 0 maxAttempts none

/-- The fixed regional keyword stems. -/
def relevanceKeywords : List PyStr :=
  [pystr "тула", pystr "туле", pystr "тульск", pystr "област"]

/-- The keyword loop of `_calculate_relevance`: add 0.3 per keyword found in
the lowered title or summary. -/
def keywordScore (t s : PyStr) : ℚ :=
  relevanceKeywords.foldl
    (fun sc kw => if substrOf kw t || substrOf kw s then sc + 3/10 else sc) 0

/-- `GoogleNewsSource._calculate_relevance` on the entry's title and summary
(`entry.get('title', '')`, `entry.get('summary', '')`) and the query: keyword
increments, plus 0.4 if any comma-separated segment of the lowered query
occurs in the lowered title or summary, clamped to [0, 1]. -/
def calculate_relevance (title summary query : PyStr) : ℚ :=
  min 1 (max 0
    (if (pySplitComma (pyLower query)).any
        (fun r => substrOf r (pyLower title) || substrOf r (pyLower summary)) then
      keywordScore (pyLower title) (pyLower summary) + 4/10
    else keywordScore (pyLower title) (pyLower summary)))

/-- A shared concrete valid article used by the closed witnesses below. -/
def artW : NewsArticle :=
  ⟨pystr "id1", pystr "abc", pystr "https://example.com", pystr "src", 3,
    none, none, .other, pystr "r", 0⟩

/-- Concrete configuration for the C2 counterexample: the configured default
region differs from the query of the collection run. -/
def cfgW : NewsConfig := ⟨pystr "tula", 10⟩

/-- A fetch that returns one article, whatever the query. -/
def fetchW : PyStr → Nat → Except Unit (List NewsArticle) :=
  fun _ _ => .ok [artW]

/-- Does a dictionary value put in a string-typed slot pass `check`?  Only an
actual string can. -/
def strSlotOk (v : PyVal) (check : PyStr → Bool) : Bool :=
  match v with
  | .str s => check s
  | _ => false

/-- The validation status of the three values `from_dict`'s fallback
construction uses for title, url and source: present keys keep their stored
values, absent keys get the placeholders. -/
def fallbackFieldsOk (d : Dict) : Bool :=
  strSlotOk (getD d "title" (.str (pystr "Без заголовка"))) titleOk &&
    strSlotOk (getD d "url" (.str (pystr "https://example.com"))) urlFieldOk &&
    strSlotOk (getD d "source" (.str (pystr "Unknown"))) sourceFieldOk

/-- A string-typed slot is well formed when absent or holding a string. -/
def wfStrSlot : Option PyVal → Bool
  | none => true
  | some (.str _) => true
  | some _ => false

/-- An optional-string slot is well formed when absent, a string, or None. -/
def wfOptStrSlot : Option PyVal → Bool
  | none => true
  | some (.str _) => true
  | some .pyNone => true
  | some (.num _) => false

/-- Well-formedness of an article dictionary: the slots Python stores
unvalidated into `str`-typed dataclass fields hold strings when present
(numbers there would make Python and this model diverge in ways no claim
exercises). -/
def dictWF (d : Dict) : Bool :=
  wfStrSlot (List.lookup "id" d) && wfStrSlot (List.lookup "title" d) &&
    wfStrSlot (List.lookup "url" d) && wfStrSlot (List.lookup "source" d) &&
    wfStrSlot (List.lookup "region" d) &&
    wfOptStrSlot (List.lookup "content" d) &&
    wfOptStrSlot (List.lookup "summary" d)

/-- The dictionary of the C1 counterexample: a present but too-short title. -/
def dC1 : Dict := [("title", PyVal.str (pystr "ab"))]

/-! ## Theorems -/

theorem isDigitCh_digitChar {d : Nat} (h : d < 10) :
    isDigitCh (digitChar' d) = true := by
  interval_cases d <;> decide

theorem digitVal_digitChar {d : Nat} (h : d < 10) :
    digitVal (digitChar' d) = d := by
  interval_cases d <;> decide

theorem natCharsAux_ne_nil : ∀ fuel n, n < fuel → natCharsAux n fuel ≠ [] := by
  intro fuel
  induction fuel with
  | zero => omega
  | succ f ih =>
    intro n hn
    unfold natCharsAux
    split <;> simp

theorem natChars_ne_nil (n : Nat) : natChars n ≠ [] :=
  natCharsAux_ne_nil (n + 1) n (by omega)

theorem natCharsAux_all_digits :
    ∀ fuel n, n < fuel → (natCharsAux n fuel).all isDigitCh = true := by
  intro fuel
  induction fuel with
  | zero => omega
  | succ f ih =>
    intro n hn
    unfold natCharsAux
    split
    · next h => simp [List.all, isDigitCh_digitChar h]
    · next h =>
      rw [List.all_append]
      have hd : n / 10 < n := Nat.div_lt_self (by omega) (by omega)
      have h1 := ih (n / 10) (by omega)
      have h2 := isDigitCh_digitChar (Nat.mod_lt n (by omega) : n % 10 < 10)
      simp [h1, h2]

theorem natChars_all_digits (n : Nat) : (natChars n).all isDigitCh = true :=
  natCharsAux_all_digits (n + 1) n (by omega)

theorem natCharsAux_val :
    ∀ fuel n, n < fuel →
      (natCharsAux n fuel).foldl (fun acc c => acc * 10 + digitVal c) 0 = n := by
  intro fuel
  induction fuel with
  | zero => omega
  | succ f ih =>
    intro n hn
    unfold natCharsAux
    split
    · next h => simp [List.foldl, digitVal_digitChar h]
    · next h =>
      rw [List.foldl_append]
      have hd : n / 10 < n := Nat.div_lt_self (by omega) (by omega)
      have h1 := ih (n / 10) (by omega)
      have h2 := digitVal_digitChar (Nat.mod_lt n (by omega) : n % 10 < 10)
      simp [h1, h2]
      omega

theorem natVal_natChars (n : Nat) :
    (natChars n).foldl (fun acc c => acc * 10 + digitVal c) 0 = n :=
  natCharsAux_val (n + 1) n (by omega)

/-- Parsing inverts rendering: `datetime.fromisoformat (t.isoformat()) = t`. -/
theorem natParse_natChars (n : Nat) : natParse? (natChars n) = some n := by
  unfold natParse?
  have hne : (natChars n).isEmpty = false := by
    cases h : natChars n with
    | nil => exact absurd h (natChars_ne_nil n)
    | cons a t => simp [List.isEmpty]
  rw [if_pos]
  · exact congrArg some (natVal_natChars n)
  · simp [hne, natChars_all_digits n]

theorem catOfVal_catStr (c : NewsCategory) : catOfVal (.str (catStr c)) = .ok c := by
  cases c <;> rfl

theorem asOptStr_optStrVal (o : Option PyStr) : asOptStr (optStrVal o) = .ok o := by
  cases o <;> rfl

/-- Round trip: deserializing a serialized valid article restores it. -/
theorem from_dict_to_dict (a : NewsArticle) (now : Nat)
    (h : validate a = true) : from_dict (to_dict a) now = .ok a := by
  unfold from_dict fromDictAttempt to_dict getD
  simp only [List.lookup, beq_self_eq_true, String.reduceBEq, Option.getD_some, asStr,
    fromisoOfVal, natParse_natChars, asOptStr_optStrVal, catOfVal_catStr,
    floatOfVal, bind, Except.bind]
  unfold mkNewsArticle
  simp only [h, if_true]

theorem substrOf_nil (h : List Char) : substrOf [] h = true := by
  cases h <;> simp [substrOf, listStartsWith]

theorem keywordFold_le (t s : PyStr) (kws : List PyStr) :
    ∀ init : ℚ,
      init ≤ kws.foldl
        (fun sc kw => if substrOf kw t || substrOf kw s then sc + 3/10 else sc)
        init := by
  induction kws with
  | nil => intro init; simp
  | cons kw rest ih =>
    intro init
    simp only [List.foldl]
    refine le_trans ?_ (ih _)
    split
    · linarith
    · exact le_refl _

theorem keywordScore_nonneg (t s : PyStr) : 0 ≤ keywordScore t s :=
  keywordFold_le t s relevanceKeywords 0

theorem pySplitComma_cons (c : Char) (rest seg : List Char)
    (segs : List (List Char)) (h : pySplitComma rest = seg :: segs) :
    pySplitComma (c :: rest) =
      if c = ',' then [] :: seg :: segs else (c :: seg) :: segs := by
  unfold pySplitComma
  rw [h]

theorem pySplitComma_append_comma (l : List Char) :
    ∃ init, pySplitComma (l ++ [ ',' ]) = init ++ [[]] ∧ init ≠ [] := by
  induction l with
  | nil => exact ⟨[[]], rfl, by simp⟩
  | cons c l ih =>
    obtain ⟨init, heq, hne⟩ := ih
    cases init with
    | nil => exact absurd rfl hne
    | cons seg initrest =>
      have hsplit := pySplitComma_cons c (l ++ [ ',' ]) seg (initrest ++ [[]])
        (by simpa using heq)
      by_cases hc : c = ','
      · refine ⟨[] :: seg :: initrest, ?_, by simp⟩
        rw [List.cons_append, hsplit, if_pos hc]
        simp
      · refine ⟨(c :: seg) :: initrest, ?_, by simp⟩
        rw [List.cons_append, hsplit, if_neg hc]
        simp

/-- C9: for all (title, summary, query) inputs the relevance score returned
by `_calculate_relevance` lies in the closed interval [0, 1] — the additive
heuristic is clamped before being returned. -/
theorem c9_relevance_score_bounds (title summary query : PyStr) :
    0 ≤ calculate_relevance title summary query ∧
      calculate_relevance title summary query ≤ 1 := by
  unfold calculate_relevance
  exact ⟨le_min (by norm_num) (le_max_left 0 _), min_le_left _ _⟩

/-- C10: if the query is the empty string or ends with a comma, splitting the
lowered query on commas yields an empty segment, the empty string is a
substring of every title and summary, and the resulting relevance score is at
least 0.4. -/
theorem c10_empty_segment_score (title summary query : PyStr)
    (h : query = [] ∨ ∃ l, query = l ++ [ ',' ]) :
    2/5 ≤ calculate_relevance title summary query := by
  have hmem : [] ∈ pySplitComma (pyLower query) := by
    rcases h with rfl | ⟨l, rfl⟩
    · simp [pyLower, pySplitComma]
    · have hl : pyLower (l ++ [ ',' ]) = pyLower l ++ [ ',' ] := by
        show (l ++ [ ',' ]).map pyLowerChar = l.map pyLowerChar ++ [ ',' ]
        rw [List.map_append]
        congr 1
      rw [hl]
      obtain ⟨init, heq, _⟩ := pySplitComma_append_comma (pyLower l)
      rw [heq]
      exact List.mem_append_right _ (by simp)
  have hany : (pySplitComma (pyLower query)).any
      (fun r => substrOf r (pyLower title) || substrOf r (pyLower summary)) =
      true :=
    List.any_eq_true.mpr ⟨[], hmem, by simp [substrOf_nil]⟩
  unfold calculate_relevance
  rw [hany]
  have h0 : 0 ≤ keywordScore (pyLower title) (pyLower summary) :=
    keywordScore_nonneg _ _
  have h1 : (2 : ℚ)/5 ≤ keywordScore (pyLower title) (pyLower summary) + 4/10 := by
    linarith
  simp only [if_true]
  exact le_min (by norm_num) (le_trans h1 (le_max_right _ _))

/-- Witness for C10 at the concrete empty query. -/
theorem c10_empty_segment_score_witness :
    ((pystr "") = ([] : PyStr) ∨ ∃ l, (pystr "") = l ++ [ ',' ]) ∧
      2/5 ≤ calculate_relevance (pystr "tula news") (pystr "summary") (pystr "") :=
  ⟨Or.inl rfl,
    c10_empty_segment_score (pystr "tula news") (pystr "summary") (pystr "")
      (Or.inl rfl)⟩

theorem retryGo_all_fail {ε α : Type} (maxA : Nat) (delay backoff : ℚ)
    (retryable : ε → Bool) (jitter : Nat → ℚ) (errs : Nat → ε)
    (hr : ∀ n, retryable (errs n) = true) :
    ∀ fuel attempt last, 1 ≤ fuel → attempt + fuel = maxA →
      (retryGo (α := α) maxA delay backoff retryable jitter
          (fun n => .error (errs n)) attempt fuel last).outcome =
          RetryOutcome.raised (errs (maxA - 1)) ∧
        (retryGo (α := α) maxA delay backoff retryable jitter
          (fun n => .error (errs n)) attempt fuel last).calls = fuel := by
  intro fuel
  induction fuel with
  | zero => intro attempt last h1 h2; omega
  | succ f ih =>
    intro attempt last h1 h2
    by_cases hA : attempt = maxA - 1
    · have hf : f = 0 := by omega
      subst hf
      simp [retryGo, hr attempt, hA]
    · have hf : 1 ≤ f := by omega
      have ihx := ih (attempt + 1) (some (errs attempt)) hf (by omega)
      simp only [retryGo, hr attempt, if_true, if_neg hA]
      exact ⟨ihx.1, by rw [ihx.2]⟩

/-- C5: a retry policy with `max_attempts = N ≥ 1` applied to an operation
that always fails with a retryable error invokes the operation exactly N
times and then propagates the last failure unchanged. -/
theorem c5_retry_exhaustion {ε α : Type} (N : Nat) (hN : 1 ≤ N)
    (delay backoff : ℚ) (retryable : ε → Bool) (jitter : Nat → ℚ)
    (errs : Nat → ε) (hr : ∀ n, retryable (errs n) = true) :
    (retry_on_failure (α := α) N delay backoff retryable jitter
        (fun n => .error (errs n))).outcome =
        RetryOutcome.raised (errs (N - 1)) ∧
      (retry_on_failure (α := α) N delay backoff retryable jitter
        (fun n => .error (errs n))).calls = N := by
  unfold retry_on_failure
  exact retryGo_all_fail N delay backoff retryable jitter errs hr N 0 none hN
    (by omega)

/-- Witness for C5 with N = 3 and a constant retryable error. -/
theorem c5_retry_exhaustion_witness :
    (retry_on_failure (ε := Nat) (α := Nat) 3 1 2 (fun _ => true) (fun _ => 0)
        (fun n => .error ((fun _ => 7) n))).outcome =
        RetryOutcome.raised ((fun _ => 7) (3 - 1)) ∧
      (retry_on_failure (ε := Nat) (α := Nat) 3 1 2 (fun _ => true) (fun _ => 0)
        (fun n => .error ((fun _ => 7) n))).calls = 3 :=
  c5_retry_exhaustion 3 (by norm_num) 1 2 (fun _ => true) (fun _ => 0)
    (fun _ => 7) (fun _ => rfl)

/-- C6: an error outside the retryable set propagates on the first
invocation, with no sleep and no further invocation. -/
theorem c6_nonretryable_immediate {ε α : Type} (maxA : Nat) (hN : 1 ≤ maxA)
    (delay backoff : ℚ) (retryable : ε → Bool) (jitter : Nat → ℚ)
    (op : Nat → Except ε α) (e : ε) (hop : op 0 = .error e)
    (hnr : retryable e = false) :
    retry_on_failure maxA delay backoff retryable jitter op =
      ⟨RetryOutcome.raised e, 1, []⟩ := by
  unfold retry_on_failure
  obtain ⟨m, rfl⟩ : ∃ m, maxA = m + 1 := ⟨maxA - 1, by omega⟩
  simp [retryGo, hop, hnr]

/-- Witness for C6 with a concrete non-retryable failure. -/
theorem c6_nonretryable_immediate_witness :
    retry_on_failure (ε := Nat) (α := Nat) 2 1 2 (fun _ => false) (fun _ => 0)
        (fun _ => .error 5) =
      ⟨RetryOutcome.raised 5, 1, []⟩ :=
  c6_nonretryable_immediate 2 (by norm_num) 1 2 (fun _ => false) (fun _ => 0)
    (fun _ => .error 5) 5 rfl rfl

theorem cachePut_cons (st : CacheState) (now : Nat) (q : PyStr) (l : Nat)
    (arts : List NewsArticle) (h : arts ≠ []) :
    cachePut st now q l arts =
      (cacheKeyData q l,
        ⟨q, l, natChars now, arts.length, arts.map to_dict⟩) :: st := by
  have hne : arts.isEmpty = false := by
    cases arts with
    | nil => exact absurd rfl h
    | cons a t => rfl
  simp [cachePut, hne]

theorem lookup_cachePut_self (st : CacheState) (now : Nat) (q : PyStr)
    (l : Nat) (arts : List NewsArticle) (h : arts ≠ []) :
    List.lookup (cacheKeyData q l) (cachePut st now q l arts) =
      some ⟨q, l, natChars now, arts.length, arts.map to_dict⟩ := by
  rw [cachePut_cons st now q l arts h]
  simp [List.lookup]

theorem is_cache_valid_put (ttlSeconds now now0 : Nat) (q : PyStr)
    (l cnt : Nat) (ds : List Dict) :
    is_cache_valid ttlSeconds now (some ⟨q, l, natChars now0, cnt, ds⟩) =
      decide ((now : Int) - now0 < ttlSeconds) := by
  simp only [is_cache_valid]
  rw [natParse_natChars]

theorem fromDictList_map_to_dict (arts : List NewsArticle) (now : Nat)
    (hval : ∀ a ∈ arts, validate a = true) :
    fromDictList (arts.map to_dict) now = .ok arts := by
  induction arts with
  | nil => rfl
  | cons a rest ih =>
    have ha := hval a (by simp)
    have hrest : ∀ b ∈ rest, validate b = true := fun b hb => hval b (by simp [hb])
    simp only [List.map_cons, fromDictList, from_dict_to_dict a now ha, ih hrest]

/-- C8: for an entry freshly written by `put`, validity at a later read
instant is exactly `now - cached_at < ttl` (re-evaluated from the stored
timestamp), and under a TTL of 0 any subsequent `get` returns absent. -/
theorem c8_ttl_validity (st : CacheState) (ttlSeconds now now0 : Nat)
    (q : PyStr) (l : Nat) (arts : List NewsArticle) (harts : arts ≠ [])
    (hle : now0 ≤ now) :
    (is_cache_valid ttlSeconds now
        (List.lookup (cacheKeyData q l) (cachePut st now0 q l arts)) = true ↔
      (now : Int) - now0 < ttlSeconds) ∧
    cacheGet (cachePut st now0 q l arts) 0 now q l = none := by
  have hlook := lookup_cachePut_self st now0 q l arts harts
  constructor
  · rw [hlook, is_cache_valid_put]
    exact decide_eq_true_iff
  · have hv : ¬((now : Int) - now0 < ((0 : Nat) : Int)) := by
      push_cast
      omega
    unfold cacheGet
    rw [hlook, is_cache_valid_put, decide_eq_false hv]
    simp

/-- Witness for C8 at concrete instants 5 (write) and 10 (read). -/
theorem c8_ttl_validity_witness :
    (([artW] : List NewsArticle) ≠ [] ∧ (5 : Nat) ≤ 10) ∧
      ((is_cache_valid 100 10
          (List.lookup (cacheKeyData (pystr "q") 1)
            (cachePut [] 5 (pystr "q") 1 [artW])) = true ↔
        (10 : Int) - (5 : Nat) < (100 : Nat)) ∧
      cacheGet (cachePut [] 5 (pystr "q") 1 [artW]) 0 10 (pystr "q") 1 = none) :=
  ⟨⟨by decide, by decide⟩,
    c8_ttl_validity [] 100 10 5 (pystr "q") 1 [artW] (by decide) (by decide)⟩

/-- C4: `put(q, l, articles)` followed immediately by `get(q, l)` under a
positive TTL returns the stored article sequence, equal by value and in
order. -/
theorem c4_cache_roundtrip (st : CacheState) (ttlSeconds now : Nat)
    (q : PyStr) (l : Nat) (arts : List NewsArticle)
    (hval : ∀ a ∈ arts, validate a = true) (harts : arts ≠ [])
    (httl : 1 ≤ ttlSeconds) :
    cacheGet (cachePut st now q l arts) ttlSeconds now q l = some arts := by
  have hlook := lookup_cachePut_self st now q l arts harts
  have hv : ((now : Int) - now < (ttlSeconds : Int)) := by
    omega
  unfold cacheGet
  rw [hlook, is_cache_valid_put, decide_eq_true hv]
  simp only [if_true, fromDictList_map_to_dict arts now hval]

/-- Witness for C4 with one concrete valid article. -/
theorem c4_cache_roundtrip_witness :
    ((∀ a ∈ ([artW] : List NewsArticle), validate a = true) ∧
        ([artW] : List NewsArticle) ≠ [] ∧ (1 : Nat) ≤ 60) ∧
      cacheGet (cachePut [] 7 (pystr "q") 2 [artW]) 60 7 (pystr "q") 2 =
        some [artW] :=
  ⟨⟨by decide, by decide, by decide⟩,
    c4_cache_roundtrip [] 60 7 (pystr "q") 2 [artW] (by decide) (by decide)
      (by decide)⟩

/-- Every entry `put` creates holds a non-empty article list, so a valid hit
never carries an empty list (used to justify the non-emptiness hypothesis of
the cache-hit claim against the `if cached_articles:` truthiness test). -/
theorem cachePut_articles_ne_nil (st : CacheState) (now : Nat) (q : PyStr)
    (l : Nat) (arts : List NewsArticle) (k : PyStr) (f : CacheFile)
    (hmem : (k, f) ∈ cachePut st now q l arts)
    (hold : ∀ g : CacheFile, ∀ k' : PyStr, (k', g) ∈ st → g.articles ≠ []) :
    f.articles ≠ [] := by
  by_cases h : arts.isEmpty
  · unfold cachePut at hmem
    rw [if_pos h] at hmem
    exact hold f k hmem
  · have harts : arts ≠ [] := by
      intro hc
      subst hc
      exact h rfl
    rw [cachePut_cons st now q l arts harts] at hmem
    rcases List.mem_cons.mp hmem with heq | hmem'
    · have hf : f = ⟨q, l, natChars now, arts.length, arts.map to_dict⟩ :=
        congrArg Prod.snd heq
      rw [hf]
      intro hc
      exact harts (List.map_eq_nil_iff.mp hc)
    · exact hold f k hmem'

/-- C3: when `force_refresh` is unset and the cache returns a valid hit for
(query, limit), `collect` returns the cached articles at once: the source
adapter is not invoked, no snapshot is written and no cache entry is
written — the collector state is unchanged. -/
theorem c3_cache_hit_immediate {ε : Type} (cfg : NewsConfig)
    (ttlSeconds : Nat) (fetch : PyStr → Nat → Except ε (List NewsArticle))
    (st : ColState) (q : PyStr) (l now : Nat) (arts : List NewsArticle)
    (hget : cacheGet st.cache ttlSeconds now q l = some arts)
    (harts : arts ≠ []) :
    collect cfg ttlSeconds true fetch st (some q) (some l) false now =
      .ok ⟨arts, st, false⟩ := by
  have hne : arts.isEmpty = false := by
    cases arts with
    | nil => exact absurd rfl harts
    | cons a t => rfl
  simp [collect, hget, hne]

/-- Witness for C3: a state whose cache holds one freshly written entry. -/
theorem c3_cache_hit_immediate_witness :
    (cacheGet (cachePut [] 100 (pystr "q") 2 [artW]) 3600 100 (pystr "q") 2 =
        some [artW] ∧ ([artW] : List NewsArticle) ≠ []) ∧
      collect ⟨pystr "tula", 10⟩ 3600 true
          (fun _ _ => (.ok [] : Except Unit (List NewsArticle)))
          ⟨cachePut [] 100 (pystr "q") 2 [artW], []⟩ (some (pystr "q"))
          (some 2) false 100 =
        .ok ⟨[artW], ⟨cachePut [] 100 (pystr "q") 2 [artW], []⟩, false⟩ :=
  ⟨⟨by decide, by decide⟩,
    c3_cache_hit_immediate ⟨pystr "tula", 10⟩ 3600
      (fun _ _ => (.ok [] : Except Unit (List NewsArticle)))
      ⟨cachePut [] 100 (pystr "q") 2 [artW], []⟩ (pystr "q") 2 100 [artW]
      (by decide) (by decide)⟩

/-- C7: `put(q, l, [])` leaves the cache unchanged, and a collect run whose
fetch yields an empty result writes no snapshot file and no cache entry and
returns the empty sequence. -/
theorem c7_empty_result_no_write {ε : Type} (st : CacheState) (stC : ColState)
    (cfg : NewsConfig) (ttlSeconds : Nat)
    (fetch : PyStr → Nat → Except ε (List NewsArticle)) (q : PyStr)
    (l now : Nat) (hmiss : cacheGet stC.cache ttlSeconds now q l = none)
    (hfetch : fetch q l = .ok []) :
    cachePut st now q l [] = st ∧
      collect cfg ttlSeconds true fetch stC (some q) (some l) false now =
        .ok ⟨[], stC, true⟩ := by
  refine ⟨rfl, ?_⟩
  simp [collect, hmiss, hfetch]

/-- Witness for C7 on the empty collector state. -/
theorem c7_empty_result_no_write_witness :
    (cacheGet ([] : CacheState) 3600 50 (pystr "q") 3 = none ∧
        (fun _ _ => (.ok [] : Except Unit (List NewsArticle))) (pystr "q") 3 =
          .ok []) ∧
      (cachePut [] 50 (pystr "q") 3 [] = ([] : CacheState) ∧
        collect ⟨pystr "tula", 10⟩ 3600 true
            (fun _ _ => (.ok [] : Except Unit (List NewsArticle)))
            ⟨[], []⟩ (some (pystr "q")) (some 3) false 50 =
          .ok ⟨[], ⟨[], []⟩, true⟩) :=
  ⟨⟨by decide, rfl⟩,
    c7_empty_result_no_write [] ⟨[], []⟩ ⟨pystr "tula", 10⟩ 3600
      (fun _ _ => (.ok [] : Except Unit (List NewsArticle))) (pystr "q") 3 50
      (by decide) rfl⟩

/-- Counterexample to C2 as stated: a collect run with query `"sport"`
writes a snapshot whose `query` field is the configured default region
`"tula"`, not the query of that collection run. -/
theorem c2_counterexample :
    (collect cfgW 3600 true fetchW ⟨[], []⟩ (some (pystr "sport")) (some 5)
          false 1000).map (fun r => r.state.snapshots.map Snapshot.query) =
        .ok [pystr "tula"] ∧
      pystr "tula" ≠ pystr "sport" := by
  constructor
  · rfl
  · decide

/-- C2 (amended): every snapshot a collect run writes records that run's
`collected_at` timestamp and a `total_count` equal to the number of articles
in its article list — but its `query` field is the configured default
region, not the query of the run.  A run writes either no snapshot or
exactly one such snapshot. -/
theorem c2_snapshot_metadata {ε : Type} (cfg : NewsConfig) (ttlSeconds : Nat)
    (useCache : Bool) (fetch : PyStr → Nat → Except ε (List NewsArticle))
    (st : ColState) (q? : Option PyStr) (l? : Option Nat)
    (force_refresh : Bool) (now : Nat) (r : CollectResult ε)
    (h : collect cfg ttlSeconds useCache fetch st q? l? force_refresh now =
      .ok r) :
    r.state.snapshots = st.snapshots ∨
      r.state.snapshots = st.snapshots ++
        [⟨now, natChars now, cfg.default_region, r.articles.length,
          r.articles.map to_dict⟩] := by
  simp only [collect] at h
  split at h
  · next arts heq =>
    cases h
    exact Or.inl rfl
  · next heq =>
    split at h
    · next e heqf => exact absurd h (by simp)
    · next articles heqf =>
      split at h
      · cases h
        exact Or.inl rfl
      · cases h
        exact Or.inr rfl

/-- Witness for C2 (amended) on the concrete run of the counterexample. -/
theorem c2_snapshot_metadata_witness :
    (⟨[artW],
        ⟨cachePut [] 1000 (pystr "sport") 5 [artW],
          [⟨1000, natChars 1000, pystr "tula", 1, [to_dict artW]⟩]⟩,
        true⟩ : CollectResult Unit).state.snapshots =
        (⟨[], []⟩ : ColState).snapshots ∨
      (⟨[artW],
        ⟨cachePut [] 1000 (pystr "sport") 5 [artW],
          [⟨1000, natChars 1000, pystr "tula", 1, [to_dict artW]⟩]⟩,
        true⟩ : CollectResult Unit).state.snapshots =
        (⟨[], []⟩ : ColState).snapshots ++
          [⟨1000, natChars 1000, cfgW.default_region,
            (⟨[artW],
              ⟨cachePut [] 1000 (pystr "sport") 5 [artW],
                [⟨1000, natChars 1000, pystr "tula", 1, [to_dict artW]⟩]⟩,
              true⟩ : CollectResult Unit).articles.length,
            (⟨[artW],
              ⟨cachePut [] 1000 (pystr "sport") 5 [artW],
                [⟨1000, natChars 1000, pystr "tula", 1, [to_dict artW]⟩]⟩,
              true⟩ : CollectResult Unit).articles.map to_dict⟩] :=
  c2_snapshot_metadata cfgW 3600 true fetchW ⟨[], []⟩ (some (pystr "sport"))
    (some 5) false 1000 _ rfl

theorem asStr_eq_ok {v : PyVal} {s : PyStr} : asStr v = .ok s ↔ v = .str s := by
  cases v <;> simp [asStr]

theorem strSlotOk_str {s : PyStr} {check : PyStr → Bool} :
    strSlotOk (.str s) check = check s := rfl

theorem slot_ok_of_used {d : Dict} {k : String} {dflt1 dflt2 s : PyStr}
    {check : PyStr → Bool} (hget : getD d k (.str dflt1) = .str s)
    (hc : check s = true) (hd : check dflt1 = false) :
    strSlotOk (getD d k (.str dflt2)) check = true := by
  unfold getD at hget ⊢
  cases hl : List.lookup k d with
  | none =>
    rw [hl] at hget
    simp only [Option.getD_none] at hget
    cases hget
    rw [hc] at hd
    exact Bool.noConfusion hd
  | some v =>
    rw [hl] at hget
    simp only [Option.getD_some] at hget ⊢
    rw [hget, strSlotOk_str]
    exact hc

theorem attempt_ok_fb {d : Dict} {now : Nat} {a : NewsArticle}
    (h : fromDictAttempt d now = .ok a) : fallbackFieldsOk d = true := by
  simp only [fromDictAttempt, bind, Except.bind] at h
  split at h
  · exact absurd h (by simp)
  · next idv hid =>
    split at h
    · exact absurd h (by simp)
    · next titlev htitle =>
      split at h
      · exact absurd h (by simp)
      · next urlv hurl =>
        split at h
        · exact absurd h (by simp)
        · next sourcev hsource =>
          split at h
          · exact absurd h (by simp)
          · next pubv hpub =>
            split at h
            · exact absurd h (by simp)
            · next contv hcont =>
              split at h
              · exact absurd h (by simp)
              · next summv hsumm =>
                split at h
                · exact absurd h (by simp)
                · next catv hcat =>
                  split at h
                  · exact absurd h (by simp)
                  · next regv hreg =>
                    split at h
                    · exact absurd h (by simp)
                    · next scorev hscore =>
                      simp only [mkNewsArticle] at h
                      split at h
                      · next hval =>
                        simp only [validate, Bool.and_eq_true] at hval
                        obtain ⟨⟨⟨ht, hu⟩, hs⟩, _⟩ := hval
                        unfold fallbackFieldsOk
                        rw [slot_ok_of_used (asStr_eq_ok.mp htitle) ht
                            (by decide),
                          slot_ok_of_used (asStr_eq_ok.mp hurl) hu (by decide),
                          slot_ok_of_used (asStr_eq_ok.mp hsource) hs
                            (by decide)]
                        rfl
                      · exact absurd h (by simp)

theorem fallback_ok_fb {d : Dict} {now : Nat} {a : NewsArticle}
    (h : fromDictFallback d now = .ok a) : fallbackFieldsOk d = true := by
  simp only [fromDictFallback, bind, Except.bind] at h
  split at h
  · exact absurd h (by simp)
  · next idv hid =>
    split at h
    · exact absurd h (by simp)
    · next titlev htitle =>
      split at h
      · exact absurd h (by simp)
      · next urlv hurl =>
        split at h
        · exact absurd h (by simp)
        · next sourcev hsource =>
          simp only [mkNewsArticle] at h
          split at h
          · next hval =>
            simp only [validate, Bool.and_eq_true] at hval
            obtain ⟨⟨⟨ht, hu⟩, hs⟩, _⟩ := hval
            unfold fallbackFieldsOk
            rw [asStr_eq_ok.mp htitle, asStr_eq_ok.mp hurl,
              asStr_eq_ok.mp hsource, strSlotOk_str, strSlotOk_str,
              strSlotOk_str, ht, hu, hs]
            rfl
          · exact absurd h (by simp)

theorem strSlotOk_shape {v : PyVal} {check : PyStr → Bool}
    (h : strSlotOk v check = true) : ∃ s, v = .str s ∧ check s = true := by
  cases v with
  | str s => exact ⟨s, rfl, h⟩
  | num q => exact absurd h (by simp [strSlotOk])
  | pyNone => exact absurd h (by simp [strSlotOk])

theorem fallback_isOk {d : Dict} (now : Nat)
    (hid : wfStrSlot (List.lookup "id" d) = true)
    (hfb : fallbackFieldsOk d = true) :
    ∃ a, fromDictFallback d now = .ok a := by
  have hidv : ∃ s, getD d "id" (.str (pystr "unknown")) = .str s := by
    unfold getD
    cases hl : List.lookup "id" d with
    | none => exact ⟨pystr "unknown", rfl⟩
    | some v =>
      rw [hl] at hid
      cases v with
      | str s => exact ⟨s, rfl⟩
      | num q => exact absurd hid (by simp [wfStrSlot])
      | pyNone => exact absurd hid (by simp [wfStrSlot])
  obtain ⟨idv, hgid⟩ := hidv
  unfold fallbackFieldsOk at hfb
  simp only [Bool.and_eq_true] at hfb
  obtain ⟨⟨hx, hy⟩, hz⟩ := hfb
  obtain ⟨t, hgt, ht⟩ := strSlotOk_shape hx
  obtain ⟨u, hgu, hu⟩ := strSlotOk_shape hy
  obtain ⟨s, hgs, hs⟩ := strSlotOk_shape hz
  have hval : validate
      ⟨idv, t, u, s, now, none, none, .other, defaultRegionField, 0⟩ = true := by
    simp only [validate]
    rw [ht, hu, hs]
    decide
  refine ⟨⟨idv, t, u, s, now, none, none, .other, defaultRegionField, 0⟩, ?_⟩
  simp only [fromDictFallback, bind, Except.bind, hgid, hgt, hgu, hgs, asStr]
  unfold mkNewsArticle
  simp only [hval, if_true]

/-- Counterexample to C1 as stated: on `{"title": "ab"}` the first
construction fails validation, the fallback re-uses the same present title,
fails validation again, and `from_dict` propagates the `ValueError` instead
of returning a placeholder Article. -/
theorem c1_counterexample : from_dict dC1 0 = .error PyErr.valueError := by
  rfl

/-- C1 (amended): for well-formed dictionaries, `from_dict` returns without
raising exactly when the title, url and source values used by its fallback
construction (present keys keep their values, absent keys get placeholders)
pass validation; otherwise the fallback itself raises and the error
propagates. -/
theorem c1_from_dict_ok_iff (d : Dict) (now : Nat) (hwf : dictWF d = true) :
    (from_dict d now).isOk = fallbackFieldsOk d := by
  have hid : wfStrSlot (List.lookup "id" d) = true := by
    unfold dictWF at hwf
    simp only [Bool.and_eq_true] at hwf
    exact hwf.1.1.1.1.1.1
  cases hfbv : fallbackFieldsOk d with
  | true =>
    unfold from_dict
    cases hA : fromDictAttempt d now with
    | ok a => rfl
    | error e =>
      obtain ⟨a, ha⟩ := fallback_isOk now hid hfbv
      rw [ha]
      rfl
  | false =>
    unfold from_dict
    cases hA : fromDictAttempt d now with
    | ok a =>
      rw [attempt_ok_fb hA] at hfbv
      exact Bool.noConfusion hfbv
    | error e =>
      cases hF : fromDictFallback d now with
      | ok a =>
        rw [fallback_ok_fb hF] at hfbv
        exact Bool.noConfusion hfbv
      | error e2 => rfl

/-- Witness for C1 (amended) at the counterexample dictionary. -/
theorem c1_from_dict_ok_iff_witness :
    dictWF dC1 = true ∧ (from_dict dC1 0).isOk = fallbackFieldsOk dC1 :=
  ⟨by decide, c1_from_dict_ok_iff dC1 0 (by decide)⟩
